import Mathlib

/-!
Shallow embedding of the `secure-execution` crate (src/lib.rs) and proofs of
the specification claims about it.

The crate exposes a single public function `requires_secure_execution()`
which memoizes the result of `requires_secure_execution_uncached()` in a
static `AtomicUsize STATE` initialized to `TODO = 2`, encoding `false` as
`0` and `true` as `1`.  The uncached resolver dispatches at compile time on
`target_os` / `cfg(unix)`:
  - `linux` / `android`: `getauxval(AT_SECURE) != 0`
  - `macos`, `ios`, `watchos`, `tvos`, `visionos`, `dragonfly`, `freebsd`,
    `illumos`, `netbsd`, `openbsd`, `solaris`: `issetugid() != 0`
  - otherwise `cfg(unix)`: `true`
  - otherwise: `false`

We model the compile-time target as a structure (an `os` name plus the
`unix` cfg flag) and the immutable-for-the-process OS state as a structure
holding the auxiliary vector and the `issetugid` return value.  The cached
query is modelled as an explicit state-passing function on the cell value,
instrumented with the number of resolver invocations, and (for the
concurrency claims) as a small-step transition system over interleavings of
loads, resolver invocations and stores.
-/

namespace SecureExecution

/-- Compile-time `target_os` values named in the crate's cfg dispatch and in
its documentation lists. -/
inductive TargetOs
  | linux | android
  | macos | ios | watchos | tvos | visionos
  | dragonfly | freebsd | illumos | netbsd | openbsd | solaris
  | aix | emscripten | espidf | fuchsia | haiku | horizon | hurd | l4re
  | nto | nuttx | redox | rtems | vita | vxworks
  | cuda | hermit | psp | solid_asp3 | teeos | trusty | uefi | wasi
  | windows | xous | zkvm
  deriving DecidableEq

/-- A build target: the `target_os` value together with the `cfg(unix)`
flag, both fixed at compile time. -/
structure Target where
  os : TargetOs
  unix : Bool

/-- The oses of the first `cfg_if` branch (`target_os = "linux"` or
`target_os = "android"`), which read the auxiliary vector. -/
def isAuxvOs : TargetOs → Bool
  | .linux | .android => true
  | _ => false

/-- The oses of the second `cfg_if` branch, which call `issetugid`. -/
def isSyscallOs : TargetOs → Bool
  | .macos | .ios | .watchos | .tvos | .visionos
  | .dragonfly | .freebsd | .illumos | .netbsd | .openbsd | .solaris => true
  | _ => false

/-- The kernel-exposed state read by the resolver, immutable for the
process: the auxiliary vector (`getauxval`, a `c_ulong`-valued lookup) and
the `issetugid()` return value (a `c_int`). -/
structure OsEnv where
  getauxval : Nat → Nat
  issetugid : Int

/-- The `AT_SECURE` auxiliary-vector key (`const AT_SECURE: c_ulong = 23`). -/
def AT_SECURE : Nat := 23

/-- Embedding of `requires_secure_execution_uncached`: the `cfg_if` chain
from src/lib.rs lines 83-180, as a function of the build target and the
kernel-exposed state. -/
def requires_secure_execution_uncached (t : Target) (env : OsEnv) : Bool :=
  if isAuxvOs t.os then
    env.getauxval AT_SECURE != 0
  else if isSyscallOs t.os then
    env.issetugid != 0
  else if t.unix then
    true
  else
    false

/-- Number of OS primitive invocations (`getauxval` or `issetugid` calls)
performed by one run of `requires_secure_execution_uncached`, per the
`cfg_if` branch selected for the target. -/
def uncachedOsReads (t : Target) : Nat :=
  if isAuxvOs t.os then 1
  else if isSyscallOs t.os then 1
  else 0

/-- Cell encoding `const FALSE: usize = 0`. -/
def FALSE : Nat := 0

/-- Cell encoding `const TRUE: usize = 1`. -/
def TRUE : Nat := 1

/-- Initial cell value `const TODO: usize = 2` (`AtomicUsize::new(TODO)`). -/
def TODO : Nat := 2

/-- Outcome of one call to `requires_secure_execution()`: the returned
boolean, the cell value after the call, and how many times the call invoked
`requires_secure_execution_uncached` (0 on the fast path, 1 on the slow
path, where the slow path also performs the one store). -/
structure QueryStep where
  result : Bool
  state : Nat
  resolverCalls : Nat
  deriving DecidableEq

/-- Embedding of `requires_secure_execution` (src/lib.rs lines 66-81) as an
explicit state-passing function on the cell value `s`: `match s { FALSE =>
false, TRUE => true, _ => { let state = uncached(); STATE.store(state as
usize); state } }`.  `Bool.toNat` is the `state as usize` cast. -/
def requires_secure_execution (t : Target) (env : OsEnv) (s : Nat) : QueryStep :=
  match s with
  | 0 => ⟨false, s, 0⟩
  | 1 => ⟨true, s, 0⟩
  | _ =>
    let state := requires_secure_execution_uncached t env
    ⟨state, state.toNat, 1⟩

/-- Results of `n` successive calls to `requires_secure_execution()` in one
process, starting from cell value `s`. -/
def runResults (t : Target) (env : OsEnv) : Nat → Nat → List Bool
  | 0, _ => []
  | n + 1, s =>
    (requires_secure_execution t env s).result ::
      runResults t env n (requires_secure_execution t env s).state

/-- Total number of resolver invocations over `n` successive calls starting
from cell value `s`. -/
def runResolverCalls (t : Target) (env : OsEnv) : Nat → Nat → Nat
  | 0, _ => 0
  | n + 1, s =>
    (requires_secure_execution t env s).resolverCalls +
      runResolverCalls t env n (requires_secure_execution t env s).state

/-- Cell value after `n` successive calls starting from cell value `s`. -/
def stateAfter (t : Target) (env : OsEnv) : Nat → Nat → Nat
  | 0, s => s
  | n + 1, s => stateAfter t env n (requires_secure_execution t env s).state

/-- Local state of one thread executing `requires_secure_execution()`:
not yet started, performed the relaxed load of the cell (observing `v`),
invoked the resolver (obtaining `b`), or returned (result `b`). -/
inductive ThreadState
  | start
  | loaded (v : Nat)
  | resolved (b : Bool)
  | done (b : Bool)
  deriving DecidableEq

/-- Configuration of `M` threads racing on the shared cell: the current
cell value and each thread's local state. -/
structure Config (M : Nat) where
  cell : Nat
  threads : Fin M → ThreadState

/-- Initial configuration: cell at TODO, every thread about to make its
first call. -/
def initConfig (M : Nat) : Config M :=
  ⟨TODO, fun _ => ThreadState.start⟩

/-- Interleaving semantics of `requires_secure_execution()` for `M` racing
threads over the single atomic cell (per-location coherence of the relaxed
atomics): a thread loads the cell; on 0 it returns `false`, on 1 it returns
`true`, on any other value it invokes `requires_secure_execution_uncached`
and then stores the encoding of that boolean before returning it.  Loads,
resolver invocations and stores of different threads interleave freely. -/
inductive Step (t : Target) (env : OsEnv) {M : Nat} : Config M → Config M → Prop
  | load (c : Config M) (i : Fin M) :
      c.threads i = ThreadState.start →
      Step t env c ⟨c.cell, Function.update c.threads i (ThreadState.loaded c.cell)⟩
  | fastFalse (c : Config M) (i : Fin M) :
      c.threads i = ThreadState.loaded FALSE →
      Step t env c ⟨c.cell, Function.update c.threads i (ThreadState.done false)⟩
  | fastTrue (c : Config M) (i : Fin M) :
      c.threads i = ThreadState.loaded TRUE →
      Step t env c ⟨c.cell, Function.update c.threads i (ThreadState.done true)⟩
  | resolve (c : Config M) (i : Fin M) (v : Nat) :
      c.threads i = ThreadState.loaded v → v ≠ FALSE → v ≠ TRUE →
      Step t env c
        ⟨c.cell, Function.update c.threads i
          (ThreadState.resolved (requires_secure_execution_uncached t env))⟩
  | publish (c : Config M) (i : Fin M) (b : Bool) :
      c.threads i = ThreadState.resolved b →
      Step t env c ⟨b.toNat, Function.update c.threads i (ThreadState.done b)⟩

/-- Configurations reachable from the initial one by interleaved steps. -/
def Reachable (t : Target) (env : OsEnv) {M : Nat} (c : Config M) : Prop :=
  Relation.ReflTransGen (Step t env) (initConfig M) c

/-- Per-thread invariant: a loaded value is TODO or the encoding of the
resolver's boolean, and any resolved or returned boolean is the resolver's
boolean. -/
def ThreadOk (t : Target) (env : OsEnv) : ThreadState → Prop
  | ThreadState.start => True
  | ThreadState.loaded v =>
      v = TODO ∨ v = (requires_secure_execution_uncached t env).toNat
  | ThreadState.resolved b => b = requires_secure_execution_uncached t env
  | ThreadState.done b => b = requires_secure_execution_uncached t env

/-- Global invariant: the cell is TODO or the encoding of the resolver's
boolean, and every thread satisfies its local invariant. -/
def Inv (t : Target) (env : OsEnv) {M : Nat} (c : Config M) : Prop :=
  (c.cell = TODO ∨ c.cell = (requires_secure_execution_uncached t env).toNat) ∧
    ∀ i, ThreadOk t env (c.threads i)

/-- A sample auxiliary-vector target (`target_os = "linux"`, `cfg(unix)`). -/
def tLinux : Target := ⟨TargetOs.linux, true⟩

/-- A sample dedicated-syscall target (`target_os = "freebsd"`, `cfg(unix)`). -/
def tFreebsd : Target := ⟨TargetOs.freebsd, true⟩

/-- A sample fallback POSIX-like target (`target_os = "fuchsia"`, `cfg(unix)`). -/
def tFuchsia : Target := ⟨TargetOs.fuchsia, true⟩

/-- A sample non-POSIX fallback target (`target_os = "windows"`, not unix). -/
def tWindows : Target := ⟨TargetOs.windows, false⟩

/-- An OS state whose `AT_SECURE` entry is 1 and whose `issetugid` returns 1. -/
def envSecure : OsEnv := ⟨fun k => if k = AT_SECURE then 1 else 0, 1⟩

/-- An OS state whose auxiliary vector is all zero and whose `issetugid`
returns 0. -/
def envPlain : OsEnv := ⟨fun _ => 0, 0⟩

/-- Intermediate configuration of the sample trace: one thread has loaded
the initial cell value TODO. -/
def demoLoaded : Config 1 := ⟨TODO, fun _ => ThreadState.loaded TODO⟩

/-- Intermediate configuration of the sample trace: the thread has invoked
the resolver (which yields `true` on `tLinux` with `envSecure`). -/
def demoResolved : Config 1 := ⟨TODO, fun _ => ThreadState.resolved true⟩

/-- Final configuration of the sample trace: the thread has stored 1 and
returned `true`. -/
def demoDone : Config 1 := ⟨TRUE, fun _ => ThreadState.done true⟩

theorem query_at_todo (t : Target) (env : OsEnv) :
    requires_secure_execution t env TODO =
      ⟨requires_secure_execution_uncached t env,
        (requires_secure_execution_uncached t env).toNat, 1⟩ := rfl

theorem query_at_toNat (t : Target) (env : OsEnv) (b : Bool) :
    requires_secure_execution t env b.toNat = ⟨b, b.toNat, 0⟩ := by
  cases b <;> rfl

theorem runResults_resolved (t : Target) (env : OsEnv) (b : Bool) :
    ∀ n, runResults t env n b.toNat = List.replicate n b := by
  intro n
  induction n with
  | zero => rfl
  | succ n ih =>
    rw [runResults, query_at_toNat, ih, List.replicate_succ]

theorem runResolverCalls_resolved (t : Target) (env : OsEnv) (b : Bool) :
    ∀ n, runResolverCalls t env n b.toNat = 0 := by
  intro n
  induction n with
  | zero => rfl
  | succ n ih =>
    rw [runResolverCalls, query_at_toNat, ih]

theorem stateAfter_resolved (t : Target) (env : OsEnv) (b : Bool) :
    ∀ n, stateAfter t env n b.toNat = b.toNat := by
  intro n
  induction n with
  | zero => rfl
  | succ n ih =>
    rw [stateAfter, query_at_toNat, ih]

/-- C1: a call on a cell holding FALSE returns `false` with no resolver
invocation and no store; on TRUE it returns `true` likewise; on any other
(unresolved) cell value it invokes `requires_secure_execution_uncached`
once, stores the encoding of the resulting boolean, and returns it. -/
theorem query_cache_spec (t : Target) (env : OsEnv) (s : Nat) :
    (s = FALSE → requires_secure_execution t env s = ⟨false, s, 0⟩) ∧
    (s = TRUE → requires_secure_execution t env s = ⟨true, s, 0⟩) ∧
    (s ≠ FALSE → s ≠ TRUE →
      requires_secure_execution t env s =
        ⟨requires_secure_execution_uncached t env,
          (requires_secure_execution_uncached t env).toNat, 1⟩) := by
  unfold FALSE TRUE
  match s with
  | 0 => exact ⟨fun _ => rfl, by omega, fun h _ => absurd rfl h⟩
  | 1 => exact ⟨by omega, fun _ => rfl, fun _ h => absurd rfl h⟩
  | n + 2 => exact ⟨by omega, by omega, fun _ _ => rfl⟩

theorem query_cache_spec_witness :
    (2 ≠ FALSE ∧ 2 ≠ TRUE) ∧
      requires_secure_execution tLinux envSecure 2 =
        ⟨requires_secure_execution_uncached tLinux envSecure,
          (requires_secure_execution_uncached tLinux envSecure).toNat, 1⟩ :=
  ⟨⟨by decide, by decide⟩,
    (query_cache_spec tLinux envSecure 2).2.2 (by decide) (by decide)⟩

/-- C2: starting from the initial cell value TODO, `n` successive calls all
return the same boolean, namely the resolver's value returned by the first
call. -/
theorem query_idempotent (t : Target) (env : OsEnv) (n : Nat) :
    runResults t env n TODO =
      List.replicate n (requires_secure_execution_uncached t env) := by
  match n with
  | 0 => rfl
  | n + 1 =>
    rw [runResults, query_at_todo, List.replicate_succ]
    exact congrArg _ (runResults_resolved t env _ n)

/-- C3: from the initial state TODO the first call moves the cell to FALSE
or TRUE, and once the cell holds FALSE or TRUE no number of further calls
ever changes it. -/
theorem cell_state_machine (t : Target) (env : OsEnv) :
    ((requires_secure_execution t env TODO).state = FALSE ∨
      (requires_secure_execution t env TODO).state = TRUE) ∧
    (∀ s, s = FALSE ∨ s = TRUE → ∀ n, stateAfter t env n s = s) := by
  constructor
  · rw [query_at_todo]
    cases requires_secure_execution_uncached t env
    · exact Or.inl rfl
    · exact Or.inr rfl
  · rintro s (rfl | rfl) n
    · exact stateAfter_resolved t env false n
    · exact stateAfter_resolved t env true n

theorem cell_state_machine_witness :
    (FALSE = FALSE ∨ FALSE = TRUE) ∧ stateAfter tLinux envSecure 3 FALSE = FALSE :=
  ⟨Or.inl rfl,
    (cell_state_machine tLinux envSecure).2 FALSE (Or.inl rfl) 3⟩

/-- C4: on `linux`/`android` targets the resolver returns `true` iff the
`AT_SECURE` auxiliary-vector value is non-zero; with the cell unresolved, a
flag value 0 makes the query return `false` and a flag value 1 makes it
return `true`. -/
theorem resolver_auxv_family (t : Target) (env : OsEnv)
    (h : isAuxvOs t.os = true) :
    (requires_secure_execution_uncached t env = true ↔
      env.getauxval AT_SECURE ≠ 0) ∧
    (env.getauxval AT_SECURE = 0 →
      (requires_secure_execution t env TODO).result = false) ∧
    (env.getauxval AT_SECURE = 1 →
      (requires_secure_execution t env TODO).result = true) := by
  have hu : requires_secure_execution_uncached t env =
      (env.getauxval AT_SECURE != 0) := by
    rw [requires_secure_execution_uncached, h, if_pos rfl]
  refine ⟨?_, ?_, ?_⟩
  · rw [hu]
    simp
  · intro h0
    rw [query_at_todo]
    show requires_secure_execution_uncached t env = false
    rw [hu, h0]
    rfl
  · intro h1
    rw [query_at_todo]
    show requires_secure_execution_uncached t env = true
    rw [hu, h1]
    rfl

theorem resolver_auxv_family_witness :
    (isAuxvOs tLinux.os = true ∧ envSecure.getauxval AT_SECURE = 1) ∧
      (requires_secure_execution tLinux envSecure TODO).result = true :=
  ⟨⟨by decide, by decide⟩,
    (resolver_auxv_family tLinux envSecure (by decide)).2.2 (by decide)⟩

/-- C5: on the dedicated-syscall family the resolver returns `true` iff
`issetugid()` returns a non-zero value, and with the cell unresolved a
return of 0 makes the query return `false`. -/
theorem resolver_syscall_family (t : Target) (env : OsEnv)
    (h : isSyscallOs t.os = true) :
    (requires_secure_execution_uncached t env = true ↔ env.issetugid ≠ 0) ∧
    (env.issetugid = 0 →
      (requires_secure_execution t env TODO).result = false) := by
  have hna : isAuxvOs t.os = false := by
    cases t
    case mk os unix =>
      cases os <;> first | rfl | simp [isSyscallOs] at h
  have hu : requires_secure_execution_uncached t env =
      (env.issetugid != 0) := by
    rw [requires_secure_execution_uncached, hna, h]
    rfl
  refine ⟨?_, ?_⟩
  · rw [hu]
    simp
  · intro h0
    rw [query_at_todo]
    show requires_secure_execution_uncached t env = false
    rw [hu, h0]
    rfl

theorem resolver_syscall_family_witness :
    (isSyscallOs tFreebsd.os = true ∧ envPlain.issetugid = 0) ∧
      (requires_secure_execution tFreebsd envPlain TODO).result = false :=
  ⟨⟨by decide, by decide⟩,
    (resolver_syscall_family tFreebsd envPlain (by decide)).2 (by decide)⟩

/-- C6: on targets in neither primitive family the resolver performs zero
OS reads and is the constant `true` on `cfg(unix)` targets and the constant
`false` on all others, independent of the OS state. -/
theorem resolver_fallback_const (t : Target) (env env2 : OsEnv)
    (h1 : isAuxvOs t.os = false) (h2 : isSyscallOs t.os = false) :
    requires_secure_execution_uncached t env =
      requires_secure_execution_uncached t env2 ∧
    requires_secure_execution_uncached t env = (if t.unix then true else false) ∧
    uncachedOsReads t = 0 := by
  have hu : ∀ e, requires_secure_execution_uncached t e =
      (if t.unix then true else false) := by
    intro e
    rw [requires_secure_execution_uncached, h1, h2]
    rfl
  refine ⟨(hu env).trans (hu env2).symm, hu env, ?_⟩
  rw [uncachedOsReads, h1, h2]
  rfl

theorem resolver_fallback_const_witness :
    (isAuxvOs tWindows.os = false ∧ isSyscallOs tWindows.os = false) ∧
      requires_secure_execution_uncached tWindows envSecure =
        (if tWindows.unix then true else false) :=
  ⟨⟨by decide, by decide⟩,
    (resolver_fallback_const tWindows envSecure envPlain (by decide)
      (by decide)).2.1⟩

/-- C7: over any number of successive calls starting from the initial cell
value TODO, the resolver is invoked at most once in total. -/
theorem resolver_called_at_most_once (t : Target) (env : OsEnv) (n : Nat) :
    runResolverCalls t env n TODO ≤ 1 := by
  match n with
  | 0 => exact Nat.zero_le 1
  | n + 1 =>
    rw [runResolverCalls, query_at_todo]
    show 1 + runResolverCalls t env n (Bool.toNat _) ≤ 1
    rw [runResolverCalls_resolved t env _ n]

/-- C8: the resolver is deterministic in the kernel-exposed state: two
invocations over equal OS state produce equal booleans. -/
theorem resolver_deterministic (t : Target) (env1 env2 : OsEnv)
    (h : env1 = env2) :
    requires_secure_execution_uncached t env1 =
      requires_secure_execution_uncached t env2 := by
  rw [h]

theorem resolver_deterministic_witness :
    envSecure = envSecure ∧
      requires_secure_execution_uncached tLinux envSecure =
        requires_secure_execution_uncached tLinux envSecure :=
  ⟨rfl, resolver_deterministic tLinux envSecure envSecure rfl⟩

/-- C10: the cell starts at 2; from any value in {0, 1, 2} a call leaves the
cell in {0, 1, 2}; a call on a cell value other than 0 and 1 takes the slow
path (one resolver invocation) and its store writes exactly the encoding of
the boolean the call returns; a call on 0 or 1 stores nothing; and on cell
values restricted to {0, 1, 2} only the value 2 reaches the slow path. -/
theorem cell_representation_invariant (t : Target) (env : OsEnv) (s : Nat) :
    TODO = 2 ∧
    (s = FALSE ∨ s = TRUE ∨ s = TODO →
      ((requires_secure_execution t env s).state = FALSE ∨
        (requires_secure_execution t env s).state = TRUE ∨
        (requires_secure_execution t env s).state = TODO)) ∧
    (s ≠ FALSE → s ≠ TRUE →
      (requires_secure_execution t env s).state =
        (requires_secure_execution t env s).result.toNat ∧
      (requires_secure_execution t env s).resolverCalls = 1) ∧
    (s = FALSE ∨ s = TRUE →
      (requires_secure_execution t env s).state = s ∧
      (requires_secure_execution t env s).resolverCalls = 0) ∧
    (s = FALSE ∨ s = TRUE ∨ s = TODO →
      (requires_secure_execution t env s).resolverCalls ≠ 0 → s = TODO) := by
  unfold FALSE TRUE TODO
  refine ⟨rfl, ?_, ?_, ?_, ?_⟩
  · rintro (rfl | rfl | rfl)
    · exact Or.inl rfl
    · exact Or.inr (Or.inl rfl)
    · show (Bool.toNat _ = 0 ∨ Bool.toNat _ = 1 ∨ Bool.toNat _ = 2)
      cases requires_secure_execution_uncached t env
      · exact Or.inl rfl
      · exact Or.inr (Or.inl rfl)
  · intro h0 h1
    match s with
    | 0 => exact absurd rfl h0
    | 1 => exact absurd rfl h1
    | n + 2 => exact ⟨rfl, rfl⟩
  · rintro (rfl | rfl) <;> exact ⟨rfl, rfl⟩
  · rintro (rfl | rfl | rfl) h
    · exact absurd rfl h
    · exact absurd rfl h
    · rfl

theorem cell_representation_invariant_witness :
    (TRUE = FALSE ∨ TRUE = TRUE) ∧
      (requires_secure_execution tLinux envSecure TRUE).state = TRUE ∧
      (requires_secure_execution tLinux envSecure TRUE).resolverCalls = 0 :=
  ⟨Or.inr rfl,
    (cell_representation_invariant tLinux envSecure TRUE).2.2.2.1
      (Or.inr rfl)⟩

theorem update_threadOk (t : Target) (env : OsEnv) {M : Nat}
    (f : Fin M → ThreadState) (i : Fin M) (v : ThreadState)
    (hf : ∀ j, ThreadOk t env (f j)) (hv : ThreadOk t env v) :
    ∀ j, ThreadOk t env (Function.update f i v j) := by
  intro j
  rcases eq_or_ne j i with rfl | hne
  · rw [Function.update_same]
    exact hv
  · rw [Function.update_noteq hne]
    exact hf j

theorem step_preserves_inv (t : Target) (env : OsEnv) {M : Nat}
    {c c2 : Config M} (hs : Step t env c c2) (h : Inv t env c) :
    Inv t env c2 := by
  obtain ⟨hcell, hthreads⟩ := h
  cases hs with
  | load i hi =>
    exact ⟨hcell, update_threadOk t env _ i _ hthreads hcell⟩
  | fastFalse i hi =>
    refine ⟨hcell, update_threadOk t env _ i _ hthreads ?_⟩
    have hok := hthreads i
    rw [hi] at hok
    have hok2 : FALSE = TODO ∨
        FALSE = (requires_secure_execution_uncached t env).toNat := hok
    show false = requires_secure_execution_uncached t env
    cases hb : requires_secure_execution_uncached t env
    · rfl
    · rw [hb] at hok2
      rcases hok2 with h2 | h2 <;> exact absurd h2 (by decide)
  | fastTrue i hi =>
    refine ⟨hcell, update_threadOk t env _ i _ hthreads ?_⟩
    have hok := hthreads i
    rw [hi] at hok
    have hok2 : TRUE = TODO ∨
        TRUE = (requires_secure_execution_uncached t env).toNat := hok
    show true = requires_secure_execution_uncached t env
    cases hb : requires_secure_execution_uncached t env
    · rw [hb] at hok2
      rcases hok2 with h2 | h2 <;> exact absurd h2 (by decide)
    · rfl
  | resolve i v hi hv0 hv1 =>
    exact ⟨hcell, update_threadOk t env _ i _ hthreads rfl⟩
  | publish i b hi =>
    have hok := hthreads i
    rw [hi] at hok
    have hb : b = requires_secure_execution_uncached t env := hok
    refine ⟨Or.inr ?_, update_threadOk t env _ i _ hthreads hb⟩
    show b.toNat = _
    rw [hb]

theorem reachable_inv (t : Target) (env : OsEnv) {M : Nat} {c : Config M}
    (h : Reachable t env c) : Inv t env c := by
  induction h with
  | refl => exact ⟨Or.inl rfl, fun _ => trivial⟩
  | tail _ hstep ih => exact step_preserves_inv t env hstep ih

/-- C9: in any configuration reachable by interleaving the loads, resolver
invocations and stores of `M` threads that race on the initially unresolved
cell, any two threads that have returned returned the same boolean, namely
the resolver's value. -/
theorem concurrent_calls_converge (t : Target) (env : OsEnv) (M : Nat)
    (c : Config M) (h : Reachable t env c) (i j : Fin M) (b1 b2 : Bool)
    (hi : c.threads i = ThreadState.done b1)
    (hj : c.threads j = ThreadState.done b2) :
    b1 = b2 ∧ b1 = requires_secure_execution_uncached t env := by
  obtain ⟨_, hthreads⟩ := reachable_inv t env h
  have h1 : b1 = requires_secure_execution_uncached t env := by
    have := hthreads i
    rw [hi] at this
    exact this
  have h2 : b2 = requires_secure_execution_uncached t env := by
    have := hthreads j
    rw [hj] at this
    exact this
  exact ⟨h1.trans h2.symm, h1⟩

theorem demo_step_load :
    Step tLinux envSecure (initConfig 1) demoLoaded := by
  have e : (⟨(initConfig 1).cell,
      Function.update (initConfig 1).threads 0
        (ThreadState.loaded (initConfig 1).cell)⟩ : Config 1) = demoLoaded := by
    unfold demoLoaded
    congr 1
    funext k
    have hk : k = 0 := Subsingleton.elim k 0
    rw [hk, Function.update_same]
    rfl
  exact e ▸ Step.load (initConfig 1) 0 rfl

theorem demo_step_resolve :
    Step tLinux envSecure demoLoaded demoResolved := by
  have e : (⟨demoLoaded.cell,
      Function.update demoLoaded.threads 0
        (ThreadState.resolved
          (requires_secure_execution_uncached tLinux envSecure))⟩ :
      Config 1) = demoResolved := by
    unfold demoResolved
    congr 1
    funext k
    have hk : k = 0 := Subsingleton.elim k 0
    rw [hk, Function.update_same]
    rfl
  exact e ▸ Step.resolve demoLoaded 0 TODO rfl (by decide) (by decide)

theorem demo_step_publish :
    Step tLinux envSecure demoResolved demoDone := by
  have e : (⟨(true : Bool).toNat,
      Function.update demoResolved.threads 0 (ThreadState.done true)⟩ :
      Config 1) = demoDone := by
    unfold demoDone
    congr 1
    funext k
    have hk : k = 0 := Subsingleton.elim k 0
    rw [hk, Function.update_same]
  exact e ▸ Step.publish demoResolved 0 true rfl

theorem demo_reachable : Reachable tLinux envSecure demoDone :=
  Relation.ReflTransGen.head demo_step_load
    (Relation.ReflTransGen.head demo_step_resolve
      (Relation.ReflTransGen.head demo_step_publish Relation.ReflTransGen.refl))

theorem concurrent_calls_converge_witness :
    demoDone.threads 0 = ThreadState.done true ∧
      (true = true ∧
        true = requires_secure_execution_uncached tLinux envSecure) :=
  ⟨rfl, concurrent_calls_converge tLinux envSecure 1 demoDone demo_reachable
    0 0 true true rfl rfl⟩

end SecureExecution
